import Mathlib

/-!
Verification of the WiThrottle protocol engine (`src/WiThrottle.cpp`,
class `WiThrottle`, second / current snapshot of the file).

The C++ class is embedded shallowly: the member fields become a Lean
structure `WState`, each member function becomes a pure Lean function
from a state (plus its inputs) to a new state together with its return
value and the externally observable side effects (outbound writes on the
transport and delegate callbacks), collected in a list of `Event`s.

Time: the two `Chrono` timers (an external Arduino library, constructed
with `Chrono::SECONDS` resolution) are modelled by recording, in the
state, the absolute time at which each timer was last (re)started; a
poll receives the current absolute time `now : Rat` and
`timer.hasPassed(x)` becomes `x ≤ now - start`, `timer.restart()`
becomes `start := now`, exactly the library's documented semantics.

Arduino `String::toInt` (C `atol`) and `String::toFloat` (C `atof`) are
external library calls; they are modelled below (`atolM`, `atofM`) with
their documented semantics: skip leading whitespace, optional sign,
maximal digit run (for `atofM` also an optional fractional part; the
exponent forms of `atof`, never produced by this protocol, are omitted).
Strings are modelled as `List Char`.
-/

namespace WiThrottleM

set_option maxRecDepth 2000

inductive Direction
  | Reverse
  | Forward
deriving DecidableEq, Repr

inductive TrackPower
  | PowerOff
  | PowerOn
  | PowerUnknown
deriving DecidableEq, Repr

/-- Externally observable effects of the engine: bytes written to the
transport (`sent`, one entry per `println`) and delegate callbacks. -/
inductive Event
  | sent (cmd : String)
  | receivedVersion (v : List Char)
  | receivedWebPort (p : Int)
  | receivedTrackPower (t : TrackPower)
  | receivedFunctionState (f : Int) (state : Bool)
  | receivedSpeed (s : Int)
  | receivedSpeedSteps (n : Int)
  | receivedDirection (d : Direction)
deriving DecidableEq, Repr

/-- Is `c` one of the characters C `isspace` accepts. -/
def isSpaceChar (c : Char) : Bool :=
  c = ' ' ∨ c = '\t' ∨ c = '\n' ∨ c = '\x0b' ∨ c = '\x0c' ∨ c = '\r'

def dropSpaces : List Char → List Char
  | [] => []
  | c :: rest => if isSpaceChar c then dropSpaces rest else c :: rest

def isDigitChar (c : Char) : Bool :=
  '0' ≤ c ∧ c ≤ '9'

/-- Accumulate a maximal run of decimal digits, stopping at the first
non-digit (the remaining characters are ignored, as in `atol`). -/
def parseDigits : List Char → Nat → Nat
  | [], acc => acc
  | c :: rest, acc =>
      if isDigitChar c then parseDigits rest (acc * 10 + (c.toNat - 48)) else acc

/-- The maximal leading digit run of a list, and what follows it. -/
def takeDigits : List Char → List Char × List Char
  | [] => ([], [])
  | c :: rest =>
      if isDigitChar c then
        let (ds, r) := takeDigits rest
        (c :: ds, r)
      else ([], c :: rest)

/-- Model of C `atol` as used by Arduino `String::toInt` (external
library): leading whitespace skipped, optional sign, maximal digit run;
`0` when no digits are present. -/
def atolM (s : List Char) : Int :=
  match dropSpaces s with
  | '-' :: rest => -(parseDigits rest 0 : Int)
  | '+' :: rest => (parseDigits rest 0 : Int)
  | rest => (parseDigits rest 0 : Int)

/-- Value of a digit run read as the fractional part after a decimal
point, e.g. `['2','5'] ↦ 1/4`. -/
def fracVal : List Char → Rat
  | [] => 0
  | c :: rest => (((c.toNat - 48 : Nat) : Rat) + fracVal rest) / 10

/-- Model of C `atof` as used by Arduino `String::toFloat` (external
library), restricted to the plain decimal literals this protocol uses:
leading whitespace, optional sign, digit run, optional `.` digit run. -/
def atofM (s : List Char) : Rat :=
  let s1 := dropSpaces s
  let signed : Bool × List Char :=
    match s1 with
    | '-' :: r => (true, r)
    | '+' :: r => (false, r)
    | _ => (false, s1)
  let (ds, rest) := takeDigits signed.2
  let ip : Rat := ((parseDigits ds 0 : Nat) : Rat)
  let v : Rat :=
    match rest with
    | '.' :: r => ip + fracVal (takeDigits r).1
    | _ => ip
  if signed.1 then -v else v

/-- `PROPERTY_SEPARATOR` of the source, `"<;>"`. -/
def PROPERTY_SEPARATOR : List Char := ['<', ';', '>']

/-- Index of the first occurrence of `"<;>"`, modelling Arduino
`String::indexOf` (`none` for the source's `-1`). -/
def indexOfSep : List Char → Option Nat
  | [] => none
  | c :: rest =>
      if PROPERTY_SEPARATOR.isPrefixOf (c :: rest) then some 0
      else (indexOfSep rest).map (· + 1)

/-- The member fields of class `WiThrottle` (plus `hasDelegate`, whether
the public `delegate` pointer is non-null, and the two timer bases). The
1024-byte `inputbuffer` together with the cursor `nextChar` is modelled
by `inputRev`, the first `nextChar` buffer bytes in reverse order. -/
structure WState where
  server : Bool
  streamAttached : Bool
  hasDelegate : Bool
  inputRev : List Char
  nextChar : Nat
  heartbeatPeriod : Int
  hbTimerStart : Rat
  fastTimerStart : Rat
  currentFastTime : Rat
  fastTimeRate : Rat
  clockChanged : Bool
  heartbeatChanged : Bool
  locomotiveChanged : Bool
  locomotiveSelected : Bool
  currentAddress : List Char
  currentSpeed : Int
  speedSteps : Int
  currentDirection : Direction
  protocolVersion : List Char
deriving DecidableEq, Repr

/-- `WiThrottle::resetChangeFlags`. -/
def resetChangeFlags (st : WState) : WState :=
  { st with clockChanged := false, heartbeatChanged := false, locomotiveChanged := false }

/-- `WiThrottle::init`: resets the stream, input buffer, heartbeat
period, fast clock and change flags.  (It does not touch
`currentAddress`, `currentSpeed`, `speedSteps` or `currentDirection`.) -/
def init (st : WState) : WState :=
  resetChangeFlags
    { st with
      streamAttached := false
      inputRev := []
      nextChar := 0
      heartbeatPeriod := 0
      currentFastTime := 0
      fastTimeRate := 0
      locomotiveSelected := false }

/-- The constructor `WiThrottle::WiThrottle(bool server)`: member
initializers (`currentSpeed(0)`, `speedSteps(0)`,
`currentDirection(Forward)`, timers started at 0) followed by `init()`. -/
def construct (server : Bool) : WState :=
  init
    { server := server
      streamAttached := false
      hasDelegate := false
      inputRev := []
      nextChar := 0
      heartbeatPeriod := 0
      hbTimerStart := 0
      fastTimerStart := 0
      currentFastTime := 0
      fastTimeRate := 0
      clockChanged := false
      heartbeatChanged := false
      locomotiveChanged := false
      locomotiveSelected := false
      currentAddress := []
      currentSpeed := 0
      speedSteps := 0
      currentDirection := Direction.Forward
      protocolVersion := [] }

/-- `WiThrottle::connect`: `init()` then bind the stream. -/
def connect (st : WState) : WState :=
  { init st with streamAttached := true }

/-- `WiThrottle::disconnect`: only unbinds the stream. -/
def disconnect (st : WState) : WState :=
  { st with streamAttached := false }

/-- Assignment to the public `delegate` member. -/
def setDelegate (st : WState) : WState :=
  { st with hasDelegate := true }

/-- `WiThrottle::sendCommand`: writes `cmd` (plus an empty line in
server mode) if and only if a stream is attached. -/
def sendCommand (st : WState) (cmd : String) : List Event :=
  if st.streamAttached then
    Event.sent cmd :: (if st.server then [Event.sent ""] else [])
  else []

/-- `WiThrottle::setCurrentFastTime`: `currentFastTime = s.toInt()`. -/
def setCurrentFastTime (st : WState) (s : List Char) : WState :=
  { st with currentFastTime := ((atolM s : Int) : Rat) }

/-- `WiThrottle::processFastTime` (payload after the `PFT` marker): on a
separator at a positive index, set the time from the first field and the
rate from the second; otherwise set only the time.  Returns `true` in
every branch; the `clockChanged` member is never written here. -/
def processFastTime (st : WState) (c : List Char) : WState × Bool :=
  match indexOfSep c with
  | some p =>
      if 0 < p then
        let timeval := c.take p
        let rate := c.drop (p + 3)
        let st1 := setCurrentFastTime st timeval
        ({ st1 with fastTimeRate := atofM rate }, true)
      else (setCurrentFastTime st c, true)
  | none => (setCurrentFastTime st c, true)

/-- `WiThrottle::processHeartbeat`: always stores the parsed period;
flags a change only when it is strictly positive. -/
def processHeartbeat (st : WState) (c : List Char) : WState × Bool :=
  let st1 := { st with heartbeatPeriod := atolM c }
  if 0 < st1.heartbeatPeriod then ({ st1 with heartbeatChanged := true }, true)
  else (st1, false)

/-- `WiThrottle::processProtocolVersion`: store and notify only when a
delegate is attached and the payload is non-empty. -/
def processProtocolVersion (st : WState) (c : List Char) : WState × List Event :=
  if st.hasDelegate = true ∧ 0 < c.length then
    ({ st with protocolVersion := c }, [Event.receivedVersion c])
  else (st, [])

/-- `WiThrottle::processWebPort`. -/
def processWebPort (st : WState) (c : List Char) : List Event :=
  if st.hasDelegate = true ∧ 0 < c.length then [Event.receivedWebPort (atolM c)]
  else []

/-- `WiThrottle::processTrackPower`. -/
def processTrackPower (st : WState) (c : List Char) : List Event :=
  if st.hasDelegate = true ∧ 0 < c.length then
    [Event.receivedTrackPower
      (if c.getD 0 ' ' = '0' then TrackPower.PowerOff
       else if c.getD 0 ' ' = '1' then TrackPower.PowerOn
       else TrackPower.PowerUnknown)]
  else []

/-- `WiThrottle::processFunctionState` (payload like `F03` / `F112`):
requires a delegate and length at least 3; the function number is
`funcNumStr.toInt()` truncated to `uint8_t`; a parse that yields 0 while
the text is not literally `"0"` is suppressed. -/
def processFunctionState (st : WState) (functionData : List Char) : List Event :=
  if st.hasDelegate = true ∧ 3 ≤ functionData.length then
    let state := functionData.getD 1 ' ' == '1'
    let funcNumStr := functionData.drop 2
    let funcNum := (atolM funcNumStr).emod 256
    if funcNum = 0 ∧ funcNumStr ≠ ['0'] then []
    else [Event.receivedFunctionState funcNum state]
  else []

/-- `WiThrottle::processSpeed` (payload like `V50`): values outside
`[MIN_SPEED, MAX_SPEED] = [0, 126]` are clamped to 0; the delegate is
notified but no member field is written. -/
def processSpeed (st : WState) (speedData : List Char) : List Event :=
  if st.hasDelegate = true ∧ 2 ≤ speedData.length then
    let speed := atolM (speedData.drop 1)
    let speed := if speed < 0 ∨ 126 < speed then 0 else speed
    [Event.receivedSpeed speed]
  else []

/-- `WiThrottle::processSpeedSteps` (payload like `s4`): only the values
1, 2, 4, 8, 16 are notified; anything else is dropped. -/
def processSpeedSteps (st : WState) (speedStepData : List Char) : List Event :=
  if st.hasDelegate = true ∧ 2 ≤ speedStepData.length then
    let steps := atolM (speedStepData.drop 1)
    if steps ≠ 1 ∧ steps ≠ 2 ∧ steps ≠ 4 ∧ steps ≠ 8 ∧ steps ≠ 16 then []
    else [Event.receivedSpeedSteps steps]
  else []

/-- `WiThrottle::processDirection` (payload like `R0`): requires a
delegate and exactly two characters; `'0'` means Reverse, anything else
Forward; stores `currentDirection` and notifies. -/
def processDirection (st : WState) (directionStr : List Char) : WState × List Event :=
  if st.hasDelegate = true ∧ directionStr.length = 2 then
    let dir := if directionStr.getD 1 ' ' = '0' then Direction.Reverse else Direction.Forward
    ({ st with currentDirection := dir }, [Event.receivedDirection dir])
  else (st, [])

/-- The local `remainder` of `WiThrottle::processLocomotiveAction`: the
payload with the `addrCheck` (current address plus separator) or
`allCheck` (wildcard plus separator) leading token stripped, the
address form checked first; left as-is when neither matches. -/
def locoRemainder (st : WState) (c : List Char) : List Char :=
  if (st.currentAddress ++ PROPERTY_SEPARATOR).isPrefixOf c then
    c.drop (st.currentAddress ++ PROPERTY_SEPARATOR).length
  else if ('*' :: PROPERTY_SEPARATOR).isPrefixOf c then
    c.drop ('*' :: PROPERTY_SEPARATOR).length
  else c

/-- `WiThrottle::processLocomotiveAction` (payload after the `MTA`
marker): strip the current-address-plus-separator or the
wildcard-plus-separator, then dispatch on the first remaining char. -/
def processLocomotiveAction (st : WState) (c : List Char) : WState × Bool × List Event :=
  if 0 < (locoRemainder st c).length then
    match (locoRemainder st c).getD 0 ' ' with
    | 'F' => (st, true, processFunctionState st (locoRemainder st c))
    | 'V' => (st, true, processSpeed st (locoRemainder st c))
    | 's' => (st, true, processSpeedSteps st (locoRemainder st c))
    | 'R' =>
        let r := processDirection st (locoRemainder st c)
        (r.1, true, r.2)
    | _ => (st, true, [])
  else (st, false, [])

/-- `WiThrottle::processCommand`: strict fixed-prefix dispatch with
per-branch minimum-length guards, in source order.  The final (ignored)
branch of the C++ function falls off the end without a `return`; the
model reports `false` (no change) there. -/
def processCommand (st : WState) (c : List Char) : WState × Bool × List Event :=
  if 3 < c.length ∧ c.getD 0 ' ' = 'P' ∧ c.getD 1 ' ' = 'F' ∧ c.getD 2 ' ' = 'T' then
    ((processFastTime st (c.drop 3)).1, (processFastTime st (c.drop 3)).2, [])
  else if 3 < c.length ∧ c.getD 0 ' ' = 'P' ∧ c.getD 1 ' ' = 'P' ∧ c.getD 2 ' ' = 'A' then
    (st, true, processTrackPower st (c.drop 3))
  else if 1 < c.length ∧ c.getD 0 ' ' = '*' then
    ((processHeartbeat st (c.drop 1)).1, (processHeartbeat st (c.drop 1)).2, [])
  else if 2 < c.length ∧ c.getD 0 ' ' = 'V' ∧ c.getD 1 ' ' = 'N' then
    ((processProtocolVersion st (c.drop 2)).1, true, (processProtocolVersion st (c.drop 2)).2)
  else if 2 < c.length ∧ c.getD 0 ' ' = 'P' ∧ c.getD 1 ' ' = 'W' then
    (st, true, processWebPort st (c.drop 2))
  else if 8 < c.length ∧ c.getD 0 ' ' = 'M' ∧ c.getD 1 ' ' = 'T' ∧ c.getD 2 ' ' = 'A' then
    processLocomotiveAction st (c.drop 3)
  else
    (st, false, [])

/-- The command classification implicit in `processCommand`, with
exactly its guard conditions and priority order. -/
inductive CmdClass
  | FastTime
  | TrackPower
  | Heartbeat
  | ProtocolVersion
  | WebPort
  | LocomotiveAction
  | Ignored
deriving DecidableEq, Repr

/-- The dispatch conditions of `WiThrottle::processCommand`, as written
in the source (note the `len > 8` guard on the `MTA` branch). -/
def classify (c : List Char) : CmdClass :=
  if 3 < c.length ∧ c.getD 0 ' ' = 'P' ∧ c.getD 1 ' ' = 'F' ∧ c.getD 2 ' ' = 'T' then .FastTime
  else if 3 < c.length ∧ c.getD 0 ' ' = 'P' ∧ c.getD 1 ' ' = 'P' ∧ c.getD 2 ' ' = 'A' then .TrackPower
  else if 1 < c.length ∧ c.getD 0 ' ' = '*' then .Heartbeat
  else if 2 < c.length ∧ c.getD 0 ' ' = 'V' ∧ c.getD 1 ' ' = 'N' then .ProtocolVersion
  else if 2 < c.length ∧ c.getD 0 ' ' = 'P' ∧ c.getD 1 ' ' = 'W' then .WebPort
  else if 8 < c.length ∧ c.getD 0 ' ' = 'M' ∧ c.getD 1 ' ' = 'T' ∧ c.getD 2 ' ' = 'A' then .LocomotiveAction
  else .Ignored

/-- Classification as the claim words it: fixed-prefix matching in
priority order with a minimum-length guard per branch, where the `MTA`
branch requires length > 3. -/
def classifyClaimed (c : List Char) : CmdClass :=
  if 3 < c.length ∧ ['P', 'F', 'T'].isPrefixOf c then .FastTime
  else if 3 < c.length ∧ ['P', 'P', 'A'].isPrefixOf c then .TrackPower
  else if 1 < c.length ∧ ['*'].isPrefixOf c then .Heartbeat
  else if 2 < c.length ∧ ['V', 'N'].isPrefixOf c then .ProtocolVersion
  else if 2 < c.length ∧ ['P', 'W'].isPrefixOf c then .WebPort
  else if 3 < c.length ∧ ['M', 'T', 'A'].isPrefixOf c then .LocomotiveAction
  else .Ignored

/-- Classification as the claim must be amended to match the source: as
`classifyClaimed`, but the `MTA` branch requires length > 8. -/
def classifyAmended (c : List Char) : CmdClass :=
  if 3 < c.length ∧ ['P', 'F', 'T'].isPrefixOf c then .FastTime
  else if 3 < c.length ∧ ['P', 'P', 'A'].isPrefixOf c then .TrackPower
  else if 1 < c.length ∧ ['*'].isPrefixOf c then .Heartbeat
  else if 2 < c.length ∧ ['V', 'N'].isPrefixOf c then .ProtocolVersion
  else if 2 < c.length ∧ ['P', 'W'].isPrefixOf c then .WebPort
  else if 8 < c.length ∧ ['M', 'T', 'A'].isPrefixOf c then .LocomotiveAction
  else .Ignored

/-- One iteration of the read loop in `WiThrottle::check` for one byte:
on `'\n'` with a nonzero cursor, complete the line (buffer contents,
i.e. `inputRev` reversed) and reset the cursor; on a bare `'\n'` do
nothing (the protocol's second trailing newline); otherwise append, and
when the cursor reaches 1023 discard the over-long line. -/
def feedByte (st : WState) (b : Char) : WState × Option (List Char) :=
  if b = '\n' then
    if st.nextChar ≠ 0 then
      ({ st with inputRev := [], nextChar := 0 }, some st.inputRev.reverse)
    else (st, none)
  else
    let st1 := { st with inputRev := b :: st.inputRev, nextChar := st.nextChar + 1 }
    if st1.nextChar = 1023 then ({ st1 with inputRev := [], nextChar := 0 }, none)
    else (st1, none)

/-- Loop body of the byte-drain loop in `WiThrottle::check`: feed one
byte; if a line completes, run `processCommand` on it, OR its result
into `changed`, and record the line and events. -/
def drainStep (acc : WState × Bool × List Event × List (List Char)) (b : Char) :
    WState × Bool × List Event × List (List Char) :=
  let (st, ch, evs, lns) := acc
  let (st1, line?) := feedByte st b
  match line? with
  | none => (st1, ch, evs, lns)
  | some l =>
      let r := processCommand st1 l
      (r.1, ch || r.2.1, evs ++ r.2.2, lns ++ [l])

/-- The whole `while (stream->available())` loop of `WiThrottle::check`
over the bytes available this poll; also returns the completed lines
that were handed to `processCommand`. -/
def drain (st : WState) (bytes : List Char) : WState × Bool × List Event × List (List Char) :=
  bytes.foldl drainStep (st, false, [], [])

/-- `WiThrottle::checkFastTime`.  Note the source's `bool changed =
true;`: the function returns `true` unconditionally. -/
def checkFastTime (st : WState) (now : Rat) : WState × Bool :=
  let changed := true
  if 1 ≤ now - st.fastTimerStart then
    let st1 := { st with fastTimerStart := now }
    if st1.fastTimeRate = 0 then ({ st1 with clockChanged := false }, changed)
    else
      ({ st1 with
          currentFastTime := st1.currentFastTime + st1.fastTimeRate
          clockChanged := true }, changed)
  else (st, changed)

/-- `WiThrottle::checkHeartbeat`: when the period is positive and at
least `0.8 * period` seconds have elapsed on the heartbeat timer, send
`"*"`, restart the timer and report a change. -/
def checkHeartbeat (st : WState) (now : Rat) : WState × Bool × List Event :=
  if 0 < st.heartbeatPeriod ∧
      (4 / 5 : Rat) * (st.heartbeatPeriod : Rat) ≤ now - st.hbTimerStart then
    ({ st with hbTimerStart := now }, true, sendCommand st "*")
  else (st, false, [])

/-- `WiThrottle::check`: one poll at absolute time `now` with `bytes`
available on the stream.  Returns the new state, the `changed` result,
and the outbound/delegate events in order. -/
def check (st : WState) (now : Rat) (bytes : List Char) : WState × Bool × List Event :=
  let st0 := resetChangeFlags st
  if st0.streamAttached then
    let r1 := checkFastTime st0 now
    let r2 := checkHeartbeat r1.1 now
    let r3 := drain r2.1 bytes
    (r3.1, (r1.2 || r2.2.1) || r3.2.1, r2.2.2 ++ r3.2.2.1)
  else (st0, false, [])

/-- `WiThrottle::setSpeed`: rejects values outside `[0, 126]`;
otherwise emits `MTA*<;>V<speed>`, stores `currentSpeed` and returns
`true` — whether or not a stream is attached. -/
def setSpeed (st : WState) (speed : Int) : WState × Bool × List Event :=
  if speed < 0 ∨ 126 < speed then (st, false, [])
  else
    let evs := sendCommand st ("MTA*<;>V" ++ toString speed)
    ({ st with currentSpeed := speed }, true, evs)

/-- `WiThrottle::getSpeed`. -/
def getSpeed (st : WState) : Int :=
  st.currentSpeed

/-- `WiThrottle::setDirection`: emits `MTA*<;>R0` / `MTA*<;>R1`, stores
`currentDirection`, and always returns `true`. -/
def setDirection (st : WState) (direction : Direction) : WState × Bool × List Event :=
  let cmd := "MTA*<;>R" ++ (if direction = Direction.Reverse then "0" else "1")
  let evs := sendCommand st cmd
  ({ st with currentDirection := direction }, true, evs)

/-- `WiThrottle::getDirection`. -/
def getDirection (st : WState) : Direction :=
  st.currentDirection

/-- `WiThrottle::addLocomotive`: accepted only for addresses starting
`S` or `L`; emits `MT+<address><;><address>` and stores
`currentAddress`. -/
def addLocomotive (st : WState) (address : List Char) : WState × Bool × List Event :=
  if address.getD 0 (Char.ofNat 0) = 'S' ∨ address.getD 0 (Char.ofNat 0) = 'L' then
    let evs := sendCommand st (String.mk (['M', 'T', '+'] ++ address ++ PROPERTY_SEPARATOR ++ address))
    ({ st with currentAddress := address }, true, evs)
  else (st, false, [])

/-- A throttle in its most common operating configuration: freshly
constructed in client mode, transport attached, delegate attached. -/
def demoSt : WState := setDelegate (connect (construct false))

/-- A connected throttle whose server announced a heartbeat period of
10 seconds, heartbeat timer last restarted at time 0. -/
def hbSt : WState := { connect (construct false) with heartbeatPeriod := 10 }

section Helpers

lemma prefix1_iff (x : Char) (c : List Char) (h : 1 ≤ c.length) :
    ([x].isPrefixOf c = true) ↔ c.getD 0 ' ' = x := by
  rcases c with _ | ⟨a, r⟩
  · simp at h
  · simp [List.isPrefixOf]
    constructor
    · intro hx
      exact hx.symm
    · intro hx
      exact hx.symm

lemma prefix2_iff (x y : Char) (c : List Char) (h : 2 ≤ c.length) :
    ([x, y].isPrefixOf c = true) ↔ (c.getD 0 ' ' = x ∧ c.getD 1 ' ' = y) := by
  rcases c with _ | ⟨a, _ | ⟨b, r⟩⟩
  · simp at h
  · simp at h
  · simp [List.isPrefixOf]
    constructor
    · rintro ⟨h1, h2⟩
      exact ⟨h1.symm, h2.symm⟩
    · rintro ⟨h1, h2⟩
      exact ⟨h1.symm, h2.symm⟩

lemma prefix3_iff (x y z : Char) (c : List Char) (h : 3 ≤ c.length) :
    ([x, y, z].isPrefixOf c = true) ↔
      (c.getD 0 ' ' = x ∧ c.getD 1 ' ' = y ∧ c.getD 2 ' ' = z) := by
  rcases c with _ | ⟨a, _ | ⟨b, _ | ⟨d, r⟩⟩⟩
  · simp at h
  · simp at h
  · simp at h
  · simp [List.isPrefixOf]
    constructor
    · rintro ⟨h1, h2, h3⟩
      exact ⟨h1.symm, h2.symm, h3.symm⟩
    · rintro ⟨h1, h2, h3⟩
      exact ⟨h1.symm, h2.symm, h3.symm⟩

/-- `processFastTime` returns `true` in every branch and writes only
`currentFastTime` and `fastTimeRate`. -/
lemma processFastTime_fields (st : WState) (c : List Char) :
    (processFastTime st c).2 = true ∧
    (processFastTime st c).1.clockChanged = st.clockChanged ∧
    (processFastTime st c).1.nextChar = st.nextChar ∧
    (processFastTime st c).1.inputRev = st.inputRev ∧
    (processFastTime st c).1.currentSpeed = st.currentSpeed := by
  rcases h : indexOfSep c with _ | p
  · simp [processFastTime, setCurrentFastTime, h]
  · by_cases hp : 0 < p <;> simp [processFastTime, setCurrentFastTime, h, hp]

lemma processHeartbeat_fields (st : WState) (c : List Char) :
    (processHeartbeat st c).1.clockChanged = st.clockChanged ∧
    (processHeartbeat st c).1.nextChar = st.nextChar ∧
    (processHeartbeat st c).1.inputRev = st.inputRev ∧
    (processHeartbeat st c).1.currentSpeed = st.currentSpeed := by
  by_cases hp : (0 : Int) < atolM c <;> simp [processHeartbeat, hp]

lemma processProtocolVersion_fields (st : WState) (c : List Char) :
    (processProtocolVersion st c).1.clockChanged = st.clockChanged ∧
    (processProtocolVersion st c).1.nextChar = st.nextChar ∧
    (processProtocolVersion st c).1.inputRev = st.inputRev ∧
    (processProtocolVersion st c).1.currentSpeed = st.currentSpeed := by
  by_cases hp : (st.hasDelegate = true ∧ 0 < c.length) <;> simp [processProtocolVersion, hp]

lemma processDirection_fields (st : WState) (c : List Char) :
    (processDirection st c).1.clockChanged = st.clockChanged ∧
    (processDirection st c).1.nextChar = st.nextChar ∧
    (processDirection st c).1.inputRev = st.inputRev ∧
    (processDirection st c).1.currentSpeed = st.currentSpeed := by
  by_cases hp : (st.hasDelegate = true ∧ c.length = 2) <;> simp [processDirection, hp]

lemma processLocomotiveAction_fields (st : WState) (c : List Char) :
    (processLocomotiveAction st c).1.clockChanged = st.clockChanged ∧
    (processLocomotiveAction st c).1.nextChar = st.nextChar ∧
    (processLocomotiveAction st c).1.inputRev = st.inputRev ∧
    (processLocomotiveAction st c).1.currentSpeed = st.currentSpeed := by
  unfold processLocomotiveAction
  split
  next =>
    split <;> simp [processDirection_fields]
  next => simp

/-- Inbound command processing never touches the input cursor, the
input buffer, or the stored speed, and never sets `clockChanged`. -/
lemma processCommand_fields (st : WState) (c : List Char) :
    (processCommand st c).1.clockChanged = st.clockChanged ∧
    (processCommand st c).1.nextChar = st.nextChar ∧
    (processCommand st c).1.inputRev = st.inputRev ∧
    (processCommand st c).1.currentSpeed = st.currentSpeed := by
  unfold processCommand
  have h1 := processFastTime_fields st
  have h2 := processHeartbeat_fields st
  have h3 := processProtocolVersion_fields st
  have h4 := processLocomotiveAction_fields st
  repeat' split
  all_goals simp_all

end Helpers

/-- C2, counterexample: processing the FastTime line `PFT1000<;>2.0`
from the freshly connected state does set `currentFastTime = 1000` and
`fastTimeRate = 2.0`, but the `clockChanged` flag stays `false` — it
does not become `true` as the claim states (`processFastTime` never
writes the `clockChanged` member; only the fast-clock ticker does). -/
theorem processFastTime_clockChanged_cex :
    (processCommand (connect (construct false)) ("PFT1000<;>2.0".data)).1.clockChanged = false ∧
    (processCommand (connect (construct false)) ("PFT1000<;>2.0".data)).1.currentFastTime = 1000 ∧
    (processCommand (connect (construct false)) ("PFT1000<;>2.0".data)).1.fastTimeRate = 2 := by
  refine ⟨by decide, by decide, ?_⟩
  simp +decide [processCommand, processFastTime, setCurrentFastTime, indexOfSep,
    PROPERTY_SEPARATOR, List.isPrefixOf, atofM, dropSpaces, isSpaceChar, takeDigits,
    isDigitChar, parseDigits, fracVal, connect, construct, init, resetChangeFlags]

/-- C2, amended: on a FastTime line whose payload contains `<;>` at a
positive index both `currentFastTime` and `fastTimeRate` are set from
the two fields, and without the separator only `currentFastTime` is
set; in both cases the processing reports a change through its `true`
return value, but the `clockChanged` member flag is left unchanged
(for `PFT1000<;>2.0`: time 1000, rate 2.0; for `PFT1000`: time 1000,
rate unchanged). -/
theorem processFastTime_sets_fields_not_clockChanged (st : WState) (payload : List Char) :
    (processFastTime st payload).2 = true ∧
    (processFastTime st payload).1.clockChanged = st.clockChanged ∧
    (∀ p, indexOfSep payload = some p → 0 < p →
      (processFastTime st payload).1.currentFastTime = ((atolM (payload.take p) : Int) : Rat) ∧
      (processFastTime st payload).1.fastTimeRate = atofM (payload.drop (p + 3))) ∧
    (indexOfSep payload = none →
      (processFastTime st payload).1.currentFastTime = ((atolM payload : Int) : Rat) ∧
      (processFastTime st payload).1.fastTimeRate = st.fastTimeRate) ∧
    (processCommand st ("PFT1000<;>2.0".data)).1.currentFastTime = 1000 ∧
    (processCommand st ("PFT1000<;>2.0".data)).1.fastTimeRate = 2 ∧
    (processCommand st ("PFT1000<;>2.0".data)).2.1 = true ∧
    (processCommand st ("PFT1000<;>2.0".data)).1.clockChanged = st.clockChanged ∧
    (processCommand st ("PFT1000".data)).1.currentFastTime = 1000 ∧
    (processCommand st ("PFT1000".data)).1.fastTimeRate = st.fastTimeRate ∧
    (processCommand st ("PFT1000".data)).2.1 = true ∧
    (processCommand st ("PFT1000".data)).1.clockChanged = st.clockChanged := by
  refine ⟨(processFastTime_fields st payload).1, (processFastTime_fields st payload).2.1,
    ?_, ?_, ?_, ?_, ?_, ?_, ?_, ?_, ?_, ?_⟩
  · intro p hp hpos
    unfold processFastTime setCurrentFastTime
    rw [hp]
    dsimp only
    rw [if_pos hpos]
    exact ⟨rfl, rfl⟩
  · intro hp
    unfold processFastTime setCurrentFastTime
    rw [hp]
    exact ⟨rfl, rfl⟩
  all_goals
    simp +decide [processCommand, processFastTime, setCurrentFastTime, indexOfSep,
      PROPERTY_SEPARATOR, List.isPrefixOf, atolM, atofM, dropSpaces, isSpaceChar,
      takeDigits, isDigitChar, parseDigits, fracVal]

/-- C2 witness: the amended theorem applied at the connected initial
state, with the separator clause discharged on payload `1000<;>2.0`. -/
theorem processFastTime_sets_fields_not_clockChanged_witness :
    (processFastTime (connect (construct false)) ("1000<;>2.0".data)).1.currentFastTime =
      ((atolM (("1000<;>2.0".data).take 4) : Int) : Rat) ∧
    (processCommand (connect (construct false)) ("PFT1000<;>2.0".data)).1.fastTimeRate = 2 :=
  ⟨((processFastTime_sets_fields_not_clockChanged (connect (construct false))
      ("1000<;>2.0".data)).2.2.1 4 (by decide) (by decide)).1,
   (processFastTime_sets_fields_not_clockChanged (connect (construct false))
      ("1000<;>2.0".data)).2.2.2.2.2.1⟩

/-- C5, counterexample: the line `MTAX` (length 4) starts with `MTA`
and has length > 3, so under the claimed guard (`MTA` requires length
> 3) it would classify as LocomotiveAction; the source's guard is
`len > 8`, so `processCommand` ignores it. -/
theorem classify_mta_guard_cex :
    classify ("MTAX".data) = CmdClass.Ignored ∧
    classifyClaimed ("MTAX".data) = CmdClass.LocomotiveAction ∧
    processCommand demoSt ("MTAX".data) = (demoSt, false, []) := by
  refine ⟨by decide, by decide, by decide⟩

/-- C5, amended: classification is strict fixed-prefix matching tried
in the priority order PFT, PPA, `*`, VN, PW, MTA with everything else
Ignored, each prefix check preceded by a minimum-length guard — but the
MTA guard requires length > 8, not > 3. -/
theorem classify_matches_amended (c : List Char) : classify c = classifyAmended c := by
  have e1 : (3 < c.length ∧ (['P', 'F', 'T'].isPrefixOf c = true)) ↔
      (3 < c.length ∧ c.getD 0 ' ' = 'P' ∧ c.getD 1 ' ' = 'F' ∧ c.getD 2 ' ' = 'T') :=
    and_congr_right fun h => prefix3_iff _ _ _ c (by omega)
  have e2 : (3 < c.length ∧ (['P', 'P', 'A'].isPrefixOf c = true)) ↔
      (3 < c.length ∧ c.getD 0 ' ' = 'P' ∧ c.getD 1 ' ' = 'P' ∧ c.getD 2 ' ' = 'A') :=
    and_congr_right fun h => prefix3_iff _ _ _ c (by omega)
  have e3 : (1 < c.length ∧ (['*'].isPrefixOf c = true)) ↔
      (1 < c.length ∧ c.getD 0 ' ' = '*') :=
    and_congr_right fun h => prefix1_iff _ c (by omega)
  have e4 : (2 < c.length ∧ (['V', 'N'].isPrefixOf c = true)) ↔
      (2 < c.length ∧ c.getD 0 ' ' = 'V' ∧ c.getD 1 ' ' = 'N') :=
    and_congr_right fun h => prefix2_iff _ _ c (by omega)
  have e5 : (2 < c.length ∧ (['P', 'W'].isPrefixOf c = true)) ↔
      (2 < c.length ∧ c.getD 0 ' ' = 'P' ∧ c.getD 1 ' ' = 'W') :=
    and_congr_right fun h => prefix2_iff _ _ c (by omega)
  have e6 : (8 < c.length ∧ (['M', 'T', 'A'].isPrefixOf c = true)) ↔
      (8 < c.length ∧ c.getD 0 ' ' = 'M' ∧ c.getD 1 ' ' = 'T' ∧ c.getD 2 ' ' = 'A') :=
    and_congr_right fun h => prefix3_iff _ _ _ c (by omega)
  unfold classify classifyAmended
  rw [if_congr e1 rfl rfl]
  rw [if_congr e2 rfl rfl]
  rw [if_congr e3 rfl rfl]
  rw [if_congr e4 rfl rfl]
  rw [if_congr e5 rfl rfl]
  rw [if_congr e6 rfl rfl]

/-- C6: with a delegate attached, a function-state payload
`F<state><digits>` whose digit text parses (as `uint8_t`) to 0 while
the text is not literally `"0"` is suppressed (no delegate call), while
the digit text `"0"` notifies the delegate with function number 0 and
the state bit taken from `<state>`. -/
theorem processFunctionState_zero_asymmetry (st : WState) (c1 : Char) (ds : List Char)
    (hd : st.hasDelegate = true) :
    ((atolM ds).emod 256 = 0 → ds ≠ ['0'] →
      processFunctionState st ('F' :: c1 :: ds) = []) ∧
    (ds = ['0'] →
      processFunctionState st ('F' :: c1 :: ds) =
        [Event.receivedFunctionState 0 (c1 == '1')]) := by
  constructor
  · intro h0 hne
    rcases ds with _ | ⟨d0, ds'⟩
    · simp [processFunctionState]
    · simp only [processFunctionState, List.length_cons, List.getD, List.drop]
      rw [if_pos ⟨hd, by omega⟩]
      rw [if_pos ⟨h0, hne⟩]
  · rintro rfl
    simp only [processFunctionState, List.length_cons, List.getD, List.drop]
    rw [if_pos ⟨hd, by omega⟩]
    rw [if_neg (by simp)]
    simp +decide [atolM, dropSpaces, isSpaceChar, parseDigits, isDigitChar]

/-- C6 witness: `F1x` parses to 0 without the text being `"0"` and is
suppressed; `F10` notifies function 0 as on. -/
theorem processFunctionState_zero_asymmetry_witness :
    processFunctionState demoSt ('F' :: '1' :: ['x']) = [] ∧
    processFunctionState demoSt ('F' :: '1' :: ['0']) =
      [Event.receivedFunctionState 0 ('1' == '1')] :=
  ⟨(processFunctionState_zero_asymmetry demoSt '1' ['x'] rfl).1 (by decide) (by decide),
   (processFunctionState_zero_asymmetry demoSt '1' ['0'] rfl).2 rfl⟩

/-- C7, counterexample: with a delegate attached, `MTA*<;>V50` notifies
the delegate of speed 50 but the session's stored speed is still 0, not
50 — `processSpeed` never writes `currentSpeed`, contradicting the
claim that the clamped value is "stored in the session's speed state". -/
theorem processSpeed_not_stored_cex :
    (processCommand demoSt ("MTA*<;>V50".data)).2.2 = [Event.receivedSpeed 50] ∧
    (processCommand demoSt ("MTA*<;>V50".data)).1.currentSpeed = 0 ∧
    ((0 : Int) ≠ 50) := by
  refine ⟨by decide, by decide, by decide⟩

/-- C7, amended: with a delegate attached, an inbound speed payload
`V<number>` out of range (< 0 or > 126) is clamped to 0 and an in-range
value kept, and the result is notified to the delegate — but it is not
stored: inbound command processing leaves `currentSpeed` unchanged.  In
particular `MTA*<;>V200` notifies speed 0 and `MTA*<;>V50` notifies
speed 50, with the stored speed unchanged. -/
theorem processSpeed_clamps_notify_only (st : WState) (speedData : List Char)
    (hd : st.hasDelegate = true) (hlen : 2 ≤ speedData.length) :
    processSpeed st speedData =
      [Event.receivedSpeed
        (if atolM (speedData.drop 1) < 0 ∨ 126 < atolM (speedData.drop 1) then 0
         else atolM (speedData.drop 1))] ∧
    (∀ line, (processCommand st line).1.currentSpeed = st.currentSpeed) ∧
    (processCommand demoSt ("MTA*<;>V200".data)).2.2 = [Event.receivedSpeed 0] ∧
    (processCommand demoSt ("MTA*<;>V50".data)).2.2 = [Event.receivedSpeed 50] ∧
    (processCommand demoSt ("MTA*<;>V200".data)).1.currentSpeed = demoSt.currentSpeed := by
  refine ⟨?_, fun line => (processCommand_fields st line).2.2.2, by decide, by decide, by decide⟩
  unfold processSpeed
  rw [if_pos ⟨hd, hlen⟩]

/-- C7 witness: the amended theorem applied to the delegate-attached
state and the stripped payload `V50`. -/
theorem processSpeed_clamps_notify_only_witness :
    processSpeed demoSt ("V50".data) =
      [Event.receivedSpeed
        (if atolM (("V50".data).drop 1) < 0 ∨ 126 < atolM (("V50".data).drop 1) then 0
         else atolM (("V50".data).drop 1))] ∧
    (processCommand demoSt ("PFT1".data)).1.currentSpeed = demoSt.currentSpeed :=
  ⟨(processSpeed_clamps_notify_only demoSt ("V50".data) rfl (by decide)).1,
   (processSpeed_clamps_notify_only demoSt ("V50".data) rfl (by decide)).2.1 ("PFT1".data)⟩

/-- C10: an inbound direction payload updates the stored
`currentDirection` only when a delegate is attached and the payload is
exactly two characters; with no delegate (or a wrong length) the state
is untouched, so the stored direction — not merely the notification —
depends on delegate presence. -/
theorem processDirection_delegate_spec (st : WState) (directionStr : List Char) :
    (st.hasDelegate = false → processDirection st directionStr = (st, [])) ∧
    (directionStr.length ≠ 2 → processDirection st directionStr = (st, [])) ∧
    ((processDirection st directionStr).1.currentDirection ≠ st.currentDirection →
      st.hasDelegate = true ∧ directionStr.length = 2) ∧
    (st.hasDelegate = true → directionStr.length = 2 →
      (processDirection st directionStr).1.currentDirection =
        (if directionStr.getD 1 ' ' = '0' then Direction.Reverse else Direction.Forward) ∧
      (processDirection st directionStr).2 =
        [Event.receivedDirection
          (if directionStr.getD 1 ' ' = '0' then Direction.Reverse else Direction.Forward)]) := by
  by_cases hc : (st.hasDelegate = true ∧ directionStr.length = 2)
  · refine ⟨?_, ?_, fun _ => hc, ?_⟩
    · intro hfalse
      rw [hfalse] at hc
      simp at hc
    · intro hlen
      exact absurd hc.2 hlen
    · intro _ _
      unfold processDirection
      rw [if_pos hc]
      constructor <;> rfl
  · have hnone : processDirection st directionStr = (st, []) := by
      unfold processDirection
      rw [if_neg hc]
    refine ⟨fun _ => hnone, fun _ => hnone, ?_, ?_⟩
    · intro hne
      rw [hnone] at hne
      simp at hne
    · intro h1 h2
      exact absurd ⟨h1, h2⟩ hc

/-- C10 witness: with a delegate, `R0` stores Reverse; without one, the
same payload leaves the state untouched. -/
theorem processDirection_delegate_spec_witness :
    processDirection (construct false) ['R', '0'] = (construct false, []) ∧
    (processDirection demoSt ['R', '0']).1.currentDirection = Direction.Reverse := by
  refine ⟨(processDirection_delegate_spec (construct false) ['R', '0']).1 rfl, ?_⟩
  have h := ((processDirection_delegate_spec demoSt ['R', '0']).2.2.2 rfl rfl).1
  simpa using h

/-- C1: on a poll with a stream attached, no available bytes, and
neither time threshold crossed, `check` leaves the protocol state
(fast time, rate, heartbeat period, speed, direction, address, input
cursor) unchanged and emits nothing — but it returns `true`, not
`false` as the claim states: `checkFastTime` initializes its result
variable to `true` and returns it unconditionally, so `check` reports a
change on every poll with an attached stream. -/
theorem check_idle_poll_returns_true (st : WState) (now : Rat)
    (hs : st.streamAttached = true)
    (hf : now - st.fastTimerStart < 1)
    (hh : ¬(0 < st.heartbeatPeriod ∧
        (4 / 5 : Rat) * (st.heartbeatPeriod : Rat) ≤ now - st.hbTimerStart)) :
    (check st now []).2.1 = true ∧
    (check st now []).2.2 = [] ∧
    (check st now []).1.currentFastTime = st.currentFastTime ∧
    (check st now []).1.fastTimeRate = st.fastTimeRate ∧
    (check st now []).1.heartbeatPeriod = st.heartbeatPeriod ∧
    (check st now []).1.currentSpeed = st.currentSpeed ∧
    (check st now []).1.currentDirection = st.currentDirection ∧
    (check st now []).1.currentAddress = st.currentAddress ∧
    (check st now []).1.nextChar = st.nextChar := by
  simp [check, resetChangeFlags, checkFastTime, checkHeartbeat, drain, hs,
    not_le.mpr hf, hh]

/-- C1 witness: the freshly connected throttle polled at time 0 with no
bytes available already reports a change. -/
theorem check_idle_poll_returns_true_witness :
    (check (connect (construct false)) 0 []).2.1 = true :=
  (check_idle_poll_returns_true (connect (construct false)) 0 rfl
    (by norm_num [connect, construct, init, resetChangeFlags])
    (by norm_num [connect, construct, init, resetChangeFlags])).1

/-- C3, counterexample: connect, select locomotive `S3`, set speed 50,
then disconnect and connect again — the claim says the reset is total,
but the reconnected state still has speed 50 (not the initial 0) and
still carries the address `S3` (`init` never resets `currentSpeed`,
`currentAddress`, `speedSteps` or `currentDirection`). -/
theorem reconnect_partial_reset_cex :
    (connect (disconnect
      (setSpeed (addLocomotive (connect (construct false)) ("S3".data)).1 50).1)).currentSpeed
      = 50 ∧
    (connect (disconnect
      (setSpeed (addLocomotive (connect (construct false)) ("S3".data)).1 50).1)).currentAddress
      = "S3".data ∧
    ((50 : Int) ≠ 0) ∧ ("S3".data ≠ ([] : List Char)) := by
  refine ⟨by decide, by decide, by decide, by decide⟩

/-- C3, amended: `disconnect()` followed by `connect()` resets the
FastClock (time 0, rate 0), the Heartbeat period (0), the input cursor,
the change flags and the `locomotiveSelected` flag — but the reset is
partial, not total: `currentAddress`, `currentSpeed`, `speedSteps` and
`currentDirection` keep their pre-disconnect values. -/
theorem reconnect_resets_clock_heartbeat_not_loco (st : WState) :
    (connect (disconnect st)).currentFastTime = 0 ∧
    (connect (disconnect st)).fastTimeRate = 0 ∧
    (connect (disconnect st)).heartbeatPeriod = 0 ∧
    (connect (disconnect st)).locomotiveSelected = false ∧
    (connect (disconnect st)).nextChar = 0 ∧
    (connect (disconnect st)).inputRev = [] ∧
    (connect (disconnect st)).clockChanged = false ∧
    (connect (disconnect st)).heartbeatChanged = false ∧
    (connect (disconnect st)).locomotiveChanged = false ∧
    (connect (disconnect st)).streamAttached = true ∧
    (connect (disconnect st)).currentAddress = st.currentAddress ∧
    (connect (disconnect st)).currentSpeed = st.currentSpeed ∧
    (connect (disconnect st)).speedSteps = st.speedSteps ∧
    (connect (disconnect st)).currentDirection = st.currentDirection := by
  simp [connect, disconnect, init, resetChangeFlags]

/-- C4, counterexample: with no transport attached, `setSpeed 50`
transmits nothing, but it still stores `currentSpeed = 50` and returns
`true` — it does not leave the session state unchanged and does not
report "no change"; likewise `setDirection` stores the direction and
returns `true`. -/
theorem setSpeed_offline_mutates_cex :
    (construct false).streamAttached = false ∧
    (setSpeed (construct false) 50).1.currentSpeed = 50 ∧
    (setSpeed (construct false) 50).2.1 = true ∧
    (setSpeed (construct false) 50).2.2 = [] ∧
    (setDirection (construct false) Direction.Reverse).1.currentDirection
      = Direction.Reverse ∧
    (setDirection (construct false) Direction.Reverse).2.1 = true := by
  refine ⟨by decide, by decide, by decide, by decide, by decide, by decide⟩

/-- C4, amended: with no transport attached, `check` returns `false`
with no events, and `sendCommand` (hence every outbound operation)
transmits nothing — but `setSpeed` with an in-range argument still
stores `currentSpeed` and returns `true` (only out-of-range arguments
are rejected with `false` and no state change), and `setDirection`
still stores `currentDirection` and returns `true`. -/
theorem offline_ops_no_transmit_but_mutate (st : WState) (now : Rat) (bytes : List Char)
    (v : Int) (d : Direction) (h : st.streamAttached = false) :
    check st now bytes = (resetChangeFlags st, false, []) ∧
    (∀ cmd, sendCommand st cmd = []) ∧
    (setSpeed st v).2.2 = [] ∧
    (setDirection st d).2.2 = [] ∧
    (¬(v < 0 ∨ 126 < v) →
      (setSpeed st v).1.currentSpeed = v ∧ (setSpeed st v).2.1 = true) ∧
    ((v < 0 ∨ 126 < v) → setSpeed st v = (st, false, [])) ∧
    (setDirection st d).1.currentDirection = d ∧
    (setDirection st d).2.1 = true := by
  have hsend : ∀ cmd, sendCommand st cmd = [] := by
    intro cmd
    simp [sendCommand, h]
  refine ⟨?_, hsend, ?_, ?_, ?_, ?_, ?_, ?_⟩
  · simp [check, resetChangeFlags, h]
  · by_cases hv : (v < 0 ∨ 126 < v) <;> simp [setSpeed, hv, hsend]
  · simp [setDirection, hsend]
  · intro hv
    simp [setSpeed, hv]
  · intro hv
    simp [setSpeed, hv]
  · simp [setDirection]
  · simp [setDirection]

/-- C4 witness: the amended theorem at the freshly constructed
(unattached) throttle with `setSpeed 50`. -/
theorem offline_ops_no_transmit_but_mutate_witness :
    check (construct false) 0 [] = (resetChangeFlags (construct false), false, []) ∧
    (setSpeed (construct false) 50).1.currentSpeed = 50 :=
  ⟨(offline_ops_no_transmit_but_mutate (construct false) 0 [] 50 Direction.Reverse rfl).1,
   ((offline_ops_no_transmit_but_mutate (construct false) 0 [] 50 Direction.Reverse
      rfl).2.2.2.2.1 (by decide)).1⟩

/-- C9: with a stream attached, a poll transmits the heartbeat
acknowledgment `"*"` if and only if the heartbeat period is positive
and at least `0.8 * period` seconds have elapsed on the heartbeat
timer; on firing, the timer is reset to the current time (so a second
poll within the window does not fire again) and no session state
changes; with period 10, a poll after 8 elapsed seconds sends `"*"` and
a poll after 7 does not. -/
theorem checkHeartbeat_spec (st : WState) (now t2 : Rat) (hs : st.streamAttached = true) :
    (Event.sent "*" ∈ (checkHeartbeat st now).2.2 ↔
      (0 < st.heartbeatPeriod ∧
        (4 / 5 : Rat) * (st.heartbeatPeriod : Rat) ≤ now - st.hbTimerStart)) ∧
    ((checkHeartbeat st now).2.1 = true →
      (checkHeartbeat st now).1 = { st with hbTimerStart := now } ∧
      (t2 - now < (4 / 5 : Rat) * (st.heartbeatPeriod : Rat) →
        (checkHeartbeat (checkHeartbeat st now).1 t2).2.1 = false ∧
        (checkHeartbeat (checkHeartbeat st now).1 t2).2.2 = [])) ∧
    ((checkHeartbeat st now).1.currentFastTime = st.currentFastTime ∧
     (checkHeartbeat st now).1.fastTimeRate = st.fastTimeRate ∧
     (checkHeartbeat st now).1.heartbeatPeriod = st.heartbeatPeriod ∧
     (checkHeartbeat st now).1.currentSpeed = st.currentSpeed ∧
     (checkHeartbeat st now).1.currentDirection = st.currentDirection ∧
     (checkHeartbeat st now).1.currentAddress = st.currentAddress ∧
     (checkHeartbeat st now).1.nextChar = st.nextChar ∧
     (checkHeartbeat st now).1.heartbeatChanged = st.heartbeatChanged ∧
     (checkHeartbeat st now).1.clockChanged = st.clockChanged) ∧
    Event.sent "*" ∈ (checkHeartbeat hbSt 8).2.2 ∧
    (checkHeartbeat hbSt 7).2.2 = [] := by
  have h8 : Event.sent "*" ∈ (checkHeartbeat hbSt 8).2.2 := by
    norm_num [checkHeartbeat, sendCommand, hbSt, connect, construct, init, resetChangeFlags]
  have h7 : (checkHeartbeat hbSt 7).2.2 = [] := by
    norm_num [checkHeartbeat, sendCommand, hbSt, connect, construct, init, resetChangeFlags]
  by_cases hcond : (0 < st.heartbeatPeriod ∧
      (4 / 5 : Rat) * (st.heartbeatPeriod : Rat) ≤ now - st.hbTimerStart)
  · have hfire : checkHeartbeat st now = ({ st with hbTimerStart := now }, true, sendCommand st "*") := by
      unfold checkHeartbeat
      rw [if_pos hcond]
    refine ⟨?_, ?_, ?_, h8, h7⟩
    · rw [hfire]
      simp [sendCommand, hs, hcond]
    · intro _
      refine ⟨by rw [hfire], ?_⟩
      intro hlt
      have hno : ¬(0 < ({ st with hbTimerStart := now } : WState).heartbeatPeriod ∧
          (4 / 5 : Rat) * (({ st with hbTimerStart := now } : WState).heartbeatPeriod : Rat) ≤
            t2 - ({ st with hbTimerStart := now } : WState).hbTimerStart) := by
        rintro ⟨-, hle⟩
        simp only at hle
        linarith
      rw [hfire]
      unfold checkHeartbeat
      rw [if_neg hno]
      exact ⟨rfl, rfl⟩
    · rw [hfire]
      exact ⟨rfl, rfl, rfl, rfl, rfl, rfl, rfl, rfl, rfl⟩
  · have hnf : checkHeartbeat st now = (st, false, []) := by
      unfold checkHeartbeat
      rw [if_neg hcond]
    refine ⟨?_, ?_, ?_, h8, h7⟩
    · rw [hnf]
      simp [hcond]
    · intro habs
      rw [hnf] at habs
      simp at habs
    · rw [hnf]
      exact ⟨rfl, rfl, rfl, rfl, rfl, rfl, rfl, rfl, rfl⟩

/-- C9 witness: with period 10 and the timer based at 0, polling at
time 8 sends `"*"` and polling at time 7 does not. -/
theorem checkHeartbeat_spec_witness :
    Event.sent "*" ∈ (checkHeartbeat hbSt 8).2.2 ∧
    (checkHeartbeat hbSt 7).2.2 = [] :=
  ⟨(checkHeartbeat_spec hbSt 8 9 rfl).2.2.2.1,
   (checkHeartbeat_spec hbSt 8 9 rfl).2.2.2.2⟩

section AssemblerHelpers

lemma drainStep_shift (st : WState) (ch : Bool) (evs : List Event)
    (lns : List (List Char)) (b : Char) :
    drainStep (st, ch, evs, lns) b =
      ((drainStep (st, false, [], []) b).1,
       ch || (drainStep (st, false, [], []) b).2.1,
       evs ++ (drainStep (st, false, [], []) b).2.2.1,
       lns ++ (drainStep (st, false, [], []) b).2.2.2) := by
  rcases hfb : feedByte st b with ⟨st1, _ | l⟩ <;> simp [drainStep, hfb]

lemma foldl_drainStep_shift (bytes : List Char) (st : WState) (ch : Bool)
    (evs : List Event) (lns : List (List Char)) :
    bytes.foldl drainStep (st, ch, evs, lns) =
      ((drain st bytes).1,
       ch || (drain st bytes).2.1,
       evs ++ (drain st bytes).2.2.1,
       lns ++ (drain st bytes).2.2.2) := by
  induction bytes generalizing st ch evs lns with
  | nil => simp [drain]
  | cons b bs ih =>
      rcases hstep : drainStep (st, false, [], []) b with ⟨st1, ch1, evs1, lns1⟩
      have hl : drain st (b :: bs) = bs.foldl drainStep (st1, ch1, evs1, lns1) := by
        simp [drain, List.foldl_cons, hstep]
      rw [List.foldl_cons, drainStep_shift, hstep]
      rw [hl, ih, ih]
      simp [Bool.or_assoc, List.append_assoc]

lemma drain_cons (st : WState) (b : Char) (bs : List Char) :
    drain st (b :: bs) =
      ((drain (drainStep (st, false, [], []) b).1 bs).1,
       (drainStep (st, false, [], []) b).2.1 ||
         (drain (drainStep (st, false, [], []) b).1 bs).2.1,
       (drainStep (st, false, [], []) b).2.2.1 ++
         (drain (drainStep (st, false, [], []) b).1 bs).2.2.1,
       (drainStep (st, false, [], []) b).2.2.2 ++
         (drain (drainStep (st, false, [], []) b).1 bs).2.2.2) := by
  rcases h : drainStep (st, false, [], []) b with ⟨st1, ch1, evs1, lns1⟩
  rw [drain, List.foldl_cons, h, foldl_drainStep_shift]

lemma drain_append (st : WState) (a b : List Char) :
    drain st (a ++ b) =
      ((drain (drain st a).1 b).1,
       (drain st a).2.1 || (drain (drain st a).1 b).2.1,
       (drain st a).2.2.1 ++ (drain (drain st a).1 b).2.2.1,
       (drain st a).2.2.2 ++ (drain (drain st a).1 b).2.2.2) := by
  rcases h : drain st a with ⟨st1, ch1, evs1, lns1⟩
  rw [drain, List.foldl_append]
  rw [show List.foldl drainStep (st, false, [], []) a = drain st a from rfl, h,
    foldl_drainStep_shift]

lemma drainStep_newline_emit (st : WState) (h : st.nextChar ≠ 0) :
    drainStep (st, false, [], []) '\n' =
      ((processCommand { st with inputRev := [], nextChar := 0 } st.inputRev.reverse).1,
       (processCommand { st with inputRev := [], nextChar := 0 } st.inputRev.reverse).2.1,
       (processCommand { st with inputRev := [], nextChar := 0 } st.inputRev.reverse).2.2,
       [st.inputRev.reverse]) := by
  simp [drainStep, feedByte, h]

lemma drainStep_newline_skip (st : WState) (h : st.nextChar = 0) :
    drainStep (st, false, [], []) '\n' = (st, false, [], []) := by
  simp [drainStep, feedByte, h]

lemma drainStep_append_char (st : WState) (b : Char) (hb : b ≠ '\n')
    (h : st.nextChar + 1 ≠ 1023) :
    drainStep (st, false, [], []) b =
      ({ st with inputRev := b :: st.inputRev, nextChar := st.nextChar + 1 },
       false, [], []) := by
  simp [drainStep, feedByte, hb, h]

lemma drainStep_append_reset (st : WState) (b : Char) (hb : b ≠ '\n')
    (h : st.nextChar + 1 = 1023) :
    drainStep (st, false, [], []) b =
      ({ st with inputRev := [], nextChar := 0 }, false, [], []) := by
  simp [drainStep, feedByte, hb, h]

/-- Feeding a newline-free segment that fits in the remaining buffer
space accumulates it without emitting anything. -/
lemma drain_nonl_short (s : List Char) (st : WState)
    (hnl : '\n' ∉ s) (hinv : st.inputRev.length = st.nextChar)
    (hlen : st.nextChar + s.length ≤ 1022) :
    drain st s =
      ({ st with nextChar := st.nextChar + s.length, inputRev := s.reverse ++ st.inputRev },
       false, [], []) := by
  induction s generalizing st with
  | nil => simp [drain]
  | cons b bs ih =>
      have hb : b ≠ '\n' := fun h => hnl (h ▸ List.mem_cons_self b bs)
      have h1023 : st.nextChar + 1 ≠ 1023 := by
        simp only [List.length_cons] at hlen
        omega
      rw [drain_cons, drainStep_append_char st b hb h1023]
      have hnl2 : '\n' ∉ bs := fun h => hnl (List.mem_cons_of_mem b h)
      rw [ih { st with inputRev := b :: st.inputRev, nextChar := st.nextChar + 1 } hnl2
        (by simp [hinv]) (by simp only [List.length_cons] at hlen ⊢; omega)]
      have harith : st.nextChar + 1 + bs.length = st.nextChar + (bs.length + 1) := by
        omega
      simp [List.reverse_cons, List.append_assoc, List.singleton_append,
        List.length_cons, harith]

/-- Feeding a newline-free segment of exactly 1023 bytes from an empty
buffer fills it to the overflow bound, which discards it: the state
returns to an empty buffer and nothing is emitted. -/
lemma drain_nonl_chunk (s : List Char) (st : WState)
    (hnl : '\n' ∉ s) (hlen : s.length = 1023)
    (h0 : st.nextChar = 0) (hb : st.inputRev = []) :
    drain st s = (st, false, [], []) := by
  have h1022 : (s.take 1022).length = 1022 := by simp [hlen]
  have hlone : (s.drop 1022).length = 1 := by simp [hlen]
  obtain ⟨c, hdrop⟩ := List.length_eq_one.mp hlone
  have hsplit : s = s.take 1022 ++ [c] := by
    conv_lhs => rw [← List.take_append_drop 1022 s]
    rw [hdrop]
  have hc : c ≠ '\n' := by
    intro h
    subst h
    exact hnl (by rw [hsplit]; exact List.mem_append_right _ (List.mem_singleton_self _))
  have hnl1 : '\n' ∉ s.take 1022 := fun h => hnl (List.mem_of_mem_take h)
  have hA := drain_nonl_short (s.take 1022) st hnl1 (by rw [hb, h0]; rfl) (by omega)
  have hE3 : drain { st with nextChar := st.nextChar + (s.take 1022).length,
                             inputRev := (s.take 1022).reverse ++ st.inputRev } [c] =
      ({ st with nextChar := 0, inputRev := [] }, false, [], []) := by
    rw [show drain { st with nextChar := st.nextChar + (s.take 1022).length,
                             inputRev := (s.take 1022).reverse ++ st.inputRev } [c] =
      drainStep ({ st with nextChar := st.nextChar + (s.take 1022).length,
                           inputRev := (s.take 1022).reverse ++ st.inputRev },
        false, [], []) c from rfl]
    rw [drainStep_append_reset _ c hc (by simp [h0, h1022])]
  rw [show drain st s = drain st (s.take 1022 ++ [c]) by rw [← hsplit]]
  rw [drain_append, hA]
  dsimp only
  rw [hE3]
  dsimp only
  rw [← h0, ← hb]
  rfl

/-- Feeding a newline-free segment of any length from an empty buffer:
every full run of 1023 bytes is discarded, and the remaining
`length % 1023` bytes stay accumulated. -/
lemma drain_nonl_aux (n : Nat) : ∀ (s : List Char) (st : WState),
    s.length ≤ n → '\n' ∉ s → st.nextChar = 0 → st.inputRev = [] →
    drain st s =
      ({ st with nextChar := s.length % 1023,
                 inputRev := (s.drop (1023 * (s.length / 1023))).reverse },
       false, [], []) := by
  induction n with
  | zero =>
      intro s st hn hnl h0 hb
      have hs : s = [] := List.eq_nil_of_length_eq_zero (by omega)
      subst hs
      simp only [List.length_nil, Nat.zero_mod, Nat.zero_div, Nat.mul_zero,
        List.drop_nil, List.reverse_nil]
      rw [show drain st [] = (st, false, [], []) from rfl]
      rw [← h0, ← hb]
  | succ n ih =>
      intro s st hn hnl h0 hb
      by_cases hle : s.length ≤ 1022
      · rw [drain_nonl_short s st hnl (by rw [hb, h0]; rfl) (by omega)]
        have hm : s.length % 1023 = s.length := Nat.mod_eq_of_lt (by omega)
        have hd : s.length / 1023 = 0 := Nat.div_eq_of_lt (by omega)
        rw [hm, hd]
        simp only [Nat.mul_zero, List.drop_zero]
        rw [h0, hb]
        simp only [Nat.zero_add, List.append_nil]
      · have h1023 : 1023 ≤ s.length := by omega
        have hnl1 : '\n' ∉ s.take 1023 := fun h => hnl (List.mem_of_mem_take h)
        have hnl2 : '\n' ∉ s.drop 1023 := fun h => hnl (List.mem_of_mem_drop h)
        have hlen1 : (s.take 1023).length = 1023 := by simp [h1023]
        rw [show drain st s = drain st (s.take 1023 ++ s.drop 1023) by
          rw [List.take_append_drop]]
        rw [drain_append]
        rw [drain_nonl_chunk (s.take 1023) st hnl1 hlen1 h0 hb]
        dsimp only
        rw [ih (s.drop 1023) st (by rw [List.length_drop]; omega) hnl2 h0 hb]
        dsimp only
        have hml : (s.drop 1023).length = s.length - 1023 := by simp
        have hmod : (s.length - 1023) % 1023 = s.length % 1023 :=
          (Nat.mod_eq_sub_mod h1023).symm
        have hdiv : s.length / 1023 = (s.length - 1023) / 1023 + 1 :=
          Nat.div_eq_sub_div (by omega) h1023
        have harith : 1023 + 1023 * ((s.length - 1023) / 1023) =
            1023 * (s.length / 1023) := by
          rw [hdiv]
          ring
        have hdrop2 : (s.drop 1023).drop (1023 * ((s.length - 1023) / 1023)) =
            s.drop (1023 * (s.length / 1023)) := by
          rw [List.drop_drop, harith]
        simp only [hml, hmod, hdrop2]
        rfl

/-- `drain_nonl_aux` at the segment's own length. -/
lemma drain_nonl (s : List Char) (st : WState)
    (hnl : '\n' ∉ s) (h0 : st.nextChar = 0) (hb : st.inputRev = []) :
    drain st s =
      ({ st with nextChar := s.length % 1023,
                 inputRev := (s.drop (1023 * (s.length / 1023))).reverse },
       false, [], []) :=
  drain_nonl_aux s.length s st le_rfl hnl h0 hb

/-- The read-loop invariant: the buffer mirrors the cursor and the
cursor never exceeds 1022; every completed line handed to the parser
has at most 1022 characters. -/
lemma drain_inv (bytes : List Char) : ∀ (st : WState),
    st.inputRev.length = st.nextChar → st.nextChar ≤ 1022 →
    (drain st bytes).1.inputRev.length = (drain st bytes).1.nextChar ∧
    (drain st bytes).1.nextChar ≤ 1022 ∧
    (∀ l ∈ (drain st bytes).2.2.2, l.length ≤ 1022) := by
  induction bytes with
  | nil =>
      intro st h1 h2
      refine ⟨h1, h2, ?_⟩
      intro l hl
      simp [drain] at hl
  | cons b bs ih =>
      intro st h1 h2
      rw [drain_cons]
      dsimp only
      by_cases hbn : b = '\n'
      · subst hbn
        by_cases hz : st.nextChar = 0
        · rw [drainStep_newline_skip st hz]
          dsimp only
          have hrest := ih st h1 h2
          refine ⟨hrest.1, hrest.2.1, ?_⟩
          intro l hl
          simp only [List.nil_append] at hl
          exact hrest.2.2 l hl
        · rw [drainStep_newline_emit st hz]
          dsimp only
          have hfields := processCommand_fields
            { st with inputRev := [], nextChar := 0 } st.inputRev.reverse
          have e1 : (processCommand { st with inputRev := [], nextChar := 0 }
              st.inputRev.reverse).1.nextChar = 0 := hfields.2.1
          have e2 : (processCommand { st with inputRev := [], nextChar := 0 }
              st.inputRev.reverse).1.inputRev = [] := hfields.2.2.1
          have hrest := ih _ (by rw [e1, e2]; rfl) (by rw [e1]; omega)
          refine ⟨hrest.1, hrest.2.1, ?_⟩
          intro l hl
          simp only [List.singleton_append, List.mem_cons] at hl
          rcases hl with hl | hl
          · subst hl
            rw [List.length_reverse, h1]
            omega
          · exact hrest.2.2 l hl
      · by_cases h1023 : st.nextChar + 1 = 1023
        · rw [drainStep_append_reset st b hbn h1023]
          dsimp only
          have hrest := ih { st with inputRev := [], nextChar := 0 } rfl
            (by show (0 : Nat) ≤ 1022; omega)
          refine ⟨hrest.1, hrest.2.1, ?_⟩
          intro l hl
          simp only [List.nil_append] at hl
          exact hrest.2.2 l hl
        · rw [drainStep_append_char st b hbn h1023]
          dsimp only
          have hrest := ih { st with inputRev := b :: st.inputRev, nextChar := st.nextChar + 1 }
            (by simp [h1]) (by show st.nextChar + 1 ≤ 1022; omega)
          refine ⟨hrest.1, hrest.2.1, ?_⟩
          intro l hl
          simp only [List.nil_append] at hl
          exact hrest.2.2 l hl

end AssemblerHelpers

set_option maxRecDepth 100000 in
/-- C8, counterexample: a newline-terminated segment of 1023 bytes is
non-empty and not longer than the 1024-byte capacity, yet it produces
zero completed lines, not exactly one: the overflow reset fires when
the cursor reaches 1023 (capacity − 1), discarding the segment. -/
theorem lineAssembler_long_segment_cex :
    (List.replicate 1023 'a').length = 1023 ∧
    (1023 : Nat) < 1024 ∧
    (drain (connect (construct false)) (List.replicate 1023 'a' ++ ['\n'])).2.2.2
      = [] := by
  refine ⟨by decide, by decide, by decide⟩

/-- C8, amended: fed one byte at a time, a non-empty newline-terminated
segment of at most 1022 bytes produces exactly one completed line (the
segment itself), and an empty segment produces none; the input cursor
always stays at or below 1022 (strictly below the 1024-byte capacity)
and no completed line handed to the parser exceeds 1022 bytes
(capacity − 2); but a segment of 1023 bytes or more is not simply
discarded: each full run of 1023 bytes is discarded, and the remaining
`length % 1023` bytes (when nonzero) still produce a completed line. -/
theorem lineAssembler_spec (st st2 : WState) (s bytes : List Char)
    (hnl : '\n' ∉ s) (h0 : st.nextChar = 0) (hb : st.inputRev = [])
    (hinv2 : st2.inputRev.length = st2.nextChar) (hc2 : st2.nextChar ≤ 1022) :
    (drain st (s ++ ['\n'])).2.2.2 =
      (if s.length % 1023 = 0 then [] else [s.drop (1023 * (s.length / 1023))]) ∧
    (0 < s.length → s.length ≤ 1022 → (drain st (s ++ ['\n'])).2.2.2 = [s]) ∧
    (drain st (s ++ ['\n'])).1.nextChar = 0 ∧
    (∀ l ∈ (drain st (s ++ ['\n'])).2.2.2, l.length ≤ 1022) ∧
    (drain st2 bytes).1.nextChar ≤ 1022 ∧
    (∀ l ∈ (drain st2 bytes).2.2.2, l.length ≤ 1022) := by
  have hins := drain_inv bytes st2 hinv2 hc2
  have hnil : ∀ X : WState, drain X [] = (X, false, [], []) := fun _ => rfl
  rw [drain_append, drain_nonl s st hnl h0 hb]
  dsimp only
  rw [show drain { st with nextChar := s.length % 1023,
                           inputRev := (s.drop (1023 * (s.length / 1023))).reverse } ['\n'] =
      drainStep ({ st with nextChar := s.length % 1023,
                           inputRev := (s.drop (1023 * (s.length / 1023))).reverse },
        false, [], []) '\n' from rfl]
  by_cases hmod : s.length % 1023 = 0
  · rw [drainStep_newline_skip _ hmod]
    dsimp only
    refine ⟨by rw [if_pos hmod]; rfl, ?_, hmod, by simp, hins.2.1, hins.2.2⟩
    intro hpos hle
    have : s.length % 1023 = s.length := Nat.mod_eq_of_lt (by omega)
    omega
  · rw [drainStep_newline_emit _ hmod]
    dsimp only
    have hfields := processCommand_fields
      { { st with nextChar := s.length % 1023,
                  inputRev := (s.drop (1023 * (s.length / 1023))).reverse } with
          inputRev := [], nextChar := 0 }
      ((s.drop (1023 * (s.length / 1023))).reverse).reverse
    have hlineslen : (s.drop (1023 * (s.length / 1023))).length = s.length % 1023 := by
      rw [List.length_drop]
      have := Nat.mod_add_div s.length 1023
      omega
    refine ⟨?_, ?_, ?_, ?_, hins.2.1, hins.2.2⟩
    · rw [if_neg hmod]
      simp [List.reverse_reverse]
    · intro hpos hle
      have hd : s.length / 1023 = 0 := Nat.div_eq_of_lt (by omega)
      simp [List.reverse_reverse, hd]
    · rw [hfields.2.1]
    · intro l hl
      simp only [List.reverse_reverse, List.nil_append, List.singleton_append,
        List.append_nil, List.mem_cons, List.not_mem_nil, or_false] at hl
      subst hl
      rw [hlineslen]
      omega

/-- C8 witness: the short segment `AB` followed by a newline yields
exactly the completed line `AB`. -/
theorem lineAssembler_spec_witness :
    (drain (connect (construct false)) ("AB".data ++ ['\n'])).2.2.2 = ["AB".data] :=
  (lineAssembler_spec (connect (construct false)) (connect (construct false))
    ("AB".data) [] (by decide) rfl rfl rfl (by decide)).2.1 (by decide) (by decide)

end WiThrottleM
